import Mathlib

/-!
Verification of the compat component of the icinga2 repository
(src/components/compat/compatcomponent.cpp): the external-command
decoder (ProcessCommand), the command pipe lifecycle (CommandPipeThread),
and the legacy status/objects snapshot encoder (DumpHostStatus,
DumpHostObject, DumpServiceStatus, DumpServiceObject, StatusTimerHandler).

Strings from the C++ side are embedded as lists of characters; the block
encoders are embedded structurally: one rendered block is a section name
together with an ordered key/value field list (the surrounding brace and
tab punctuation of the legacy text format carries no information beyond
that structure).  Doubles are embedded as rationals; the only operations
the code performs on them are comparison with zero, subtraction and
division by constants, all exact.
-/

namespace Compat

/- ===================== Command decoding (ProcessCommand) ============== -/

/-- Failure kinds reported by ProcessCommand via Logger::Write. -/
inductive CommandError where
  | MissingTimestamp
  | InvalidTimestamp
  | MissingArguments
deriving DecidableEq

/-- Outcome of CompatComponent::ProcessCommand on one input line:
silently ignored (empty line), a logged decode failure, or a call to
ExternalCommand::Execute with the decoded timestamp, name and arguments. -/
inductive ProcessResult where
  | ignored
  | failed (e : CommandError)
  | executed (ts : Rat) (name : List Char) (args : List (List Char))
deriving DecidableEq

/-- Value of the digit string under the usual base-10 reading. -/
def natOfDigits (l : List Char) : Nat :=
  l.foldl (fun n c => 10 * n + (c.toNat - 48)) 0

/-- Modelled from the spec: used by String::ToDouble, which is not under
src/.  Parses an unsigned decimal numeral, with an optional fractional
part after one dot; anything else is not a number. -/
def parseUnsignedNumber (s : List Char) : Option Rat :=
  let intPart := s.takeWhile (fun c => c != '.')
  match s.dropWhile (fun c => c != '.') with
  | [] =>
    if !intPart.isEmpty && intPart.all Char.isDigit then
      some (natOfDigits intPart)
    else
      none
  | _ :: fracPart =>
    if !intPart.isEmpty && intPart.all Char.isDigit && fracPart.all Char.isDigit then
      some ((natOfDigits intPart : Rat) + (natOfDigits fracPart : Rat) / (10 : Rat) ^ fracPart.length)
    else
      none

/-- Modelled from the spec: String::ToDouble is not under src/.  Per
section 4.1 the timestamp field must parse as a floating-point number and
an empty or non-numeric field fails exactly like a zero one, so the model
returns 0 on any input that is not a signed decimal numeral. -/
def toDouble (s : List Char) : Rat :=
  match s with
  | '-' :: rest => ((parseUnsignedNumber rest).map (fun q => -q)).getD 0
  | '+' :: rest => (parseUnsignedNumber rest).getD 0
  | _ => (parseUnsignedNumber s).getD 0

/-- Accumulator-style split of a character list on semicolons. -/
def splitFieldsAux : List Char → List Char → List (List Char)
  | [], acc => [acc.reverse]
  | c :: rest, acc =>
    if c = ';' then acc.reverse :: splitFieldsAux rest [] else splitFieldsAux rest (c :: acc)

/-- Modelled from the spec: String::Split is not under src/.  Per section
4.1 the remainder is split on semicolons into fields, and an empty
remainder yields no command token at all (the MissingArguments failure),
so splitting the empty string yields no fields. -/
def splitSemis (s : List Char) : List (List Char) :=
  if s = [] then [] else splitFieldsAux s []

/-- Index of the first right bracket in the line (String::FindFirstOf). -/
def bracketPos (c : List Char) : Nat :=
  (c.takeWhile (fun ch => ch != ']')).length

/-- The timestamp field: SubStr(1, pos - 1), the characters strictly
between the opening bracket and the first closing bracket. -/
def tsFieldOf (c : List Char) : List Char :=
  (c.drop 1).take (bracketPos c - 1)

/-- Modelled from the spec: the remainder SubStr(pos + 2, NPos) uses
String::SubStr, which is not under src/.  Per section 4.1 the remainder
starts two characters after the closing bracket and may be empty, so a
start position beyond the end of the line yields the empty remainder. -/
def remainderOf (c : List Char) : List Char :=
  c.drop (bracketPos c + 2)

/-- CompatComponent::ProcessCommand on the character list of one line. -/
def processCommandCore (c : List Char) : ProcessResult :=
  if c = [] then
    .ignored
  else if c.head? ≠ some '[' then
    .failed .MissingTimestamp
  else if ']' ∉ c then
    .failed .MissingTimestamp
  else if toDouble (tsFieldOf c) = 0 then
    .failed .InvalidTimestamp
  else
    match splitSemis (remainderOf c) with
    | [] => .failed .MissingArguments
    | name :: rest => .executed (toDouble (tsFieldOf c)) name rest

/-- CompatComponent::ProcessCommand on one input line. -/
def processCommand (s : String) : ProcessResult :=
  processCommandCore s.data

/- ===================== Snapshot encoding (Dump functions) ============= -/

/-- One value written after a key in a status or objects block: an
integer, a floating-point number, or a piece of text. -/
inductive FVal where
  | int (i : Int)
  | rat (q : Rat)
  | str (s : String)
deriving DecidableEq

/-- One rendered block of the legacy text format: the section heading and
the ordered key/value field list between the braces. -/
structure Block where
  sectionName : String
  fields : List (String × FVal)
deriving DecidableEq

/-- Value of the named key in a block, if the block has that key. -/
def fieldOf (b : Block) (k : String) : Option FVal :=
  (b.fields.find? (fun kv => kv.1 == k)).map (fun kv => kv.2)

/-- Snapshot of one check result dictionary, with the keys
DumpServiceStatus reads from it. -/
structure CheckResult where
  output : String
  scheduleStart : Rat
  scheduleEnd : Rat
  executionStart : Rat
  executionEnd : Rat
  performanceDataRaw : String
deriving DecidableEq

/-- Snapshot of one Host registry object, with the accessors the compat
component reads: name, alias, parent names in iteration order, the
reachability and up flags, and the last check result (which
DumpHostStatus never reads). -/
structure Host where
  name : String
  aliasName : String
  parents : List String
  reachable : Bool
  up : Bool
  lastCheckResult : Option CheckResult
deriving DecidableEq

/-- Snapshot of one Service registry object, with the accessors the
compat component reads. -/
structure Service where
  hostName : String
  aliasName : String
  checkInterval : Rat
  retryInterval : Rat
  lastCheckResult : Option CheckResult
  state : Int
  stateType : Int
  nextCheck : Rat
  currentCheckAttempt : Int
  maxCheckAttempts : Int
  lastStateChange : Rat
  lastHardStateChange : Rat
  enableActiveChecks : Bool
  enablePassiveChecks : Bool
  acknowledgement : Int
  acknowledgementExpiry : Rat
deriving DecidableEq

/-- Snapshot of one HostGroup registry object; members are the names of
its member hosts in iteration order. -/
structure HostGroup where
  name : String
  aliasName : String
  notesUrl : String
  actionUrl : String
  members : List String
deriving DecidableEq

/-- Snapshot of one ServiceGroup registry object; members are its member
services in iteration order. -/
structure ServiceGroup where
  name : String
  aliasName : String
  notesUrl : String
  actionUrl : String
  members : List Service
deriving DecidableEq

/-- Modelled from the spec: DumpNameList and DumpStringList are declared
in the compat header, which is not under src/.  Per section 4.2 a
list-valued field renders as a comma-joined list of names. -/
def dumpNameList (names : List String) : String :=
  String.intercalate "," names

/-- Modelled from the spec: the service state enumeration is not under
src/; StateUnknown is the highest known severity value of the legacy
0/1/2/3 state scale. -/
def StateUnknown : Int := 3

/-- Modelled from the spec: the acknowledgement enumeration is not under
src/; AcknowledgementNone is its zero value. -/
def AcknowledgementNone : Int := 0

/-- CompatComponent::DumpHostStatus.  Every call to Utility::GetTime
during the block is the moment the publish cycle runs, passed as now. -/
def dumpHostStatus (h : Host) (now : Rat) : Block :=
  let state : Int := if !h.reachable then 2 else if !h.up then 1 else 0
  ⟨"hoststatus",
   [("host_name", .str h.name),
    ("has_been_checked", .int 1),
    ("should_be_scheduled", .int 1),
    ("check_execution_time", .int 0),
    ("check_latency", .int 0),
    ("current_state", .int state),
    ("state_type", .int 1),
    ("last_check", .rat now),
    ("next_check", .rat now),
    ("current_attempt", .int 1),
    ("max_attempts", .int 1),
    ("active_checks_enabled", .int 1),
    ("passive_checks_enabled", .int 1),
    ("last_update", .rat now)]⟩

/-- CompatComponent::DumpHostObject.  The parents line is written only
when the parent set is non-empty. -/
def dumpHostObject (h : Host) : Block :=
  ⟨"define host",
   [("host_name", .str h.name),
    ("alias", .str h.aliasName),
    ("check_interval", .int 1),
    ("retry_interval", .int 1),
    ("max_check_attempts", .int 1),
    ("active_checks_enabled", .int 1),
    ("passive_checks_enabled", .int 1)]
   ++ (if h.parents.isEmpty then [] else [("parents", .str (dumpNameList h.parents))])⟩

/-- CompatComponent::DumpServiceStatus.  The four timing locals start at
-1 and are overwritten from the last check result when one exists; the
state is clamped at StateUnknown before being written. -/
def dumpServiceStatus (svc : Service) (now : Rat) : Block :=
  let output := match svc.lastCheckResult with
    | some cr => cr.output
    | none => ""
  let perfdata := match svc.lastCheckResult with
    | some cr => cr.performanceDataRaw
    | none => ""
  let scheduleStart : Rat := match svc.lastCheckResult with
    | some cr => cr.scheduleStart
    | none => -1
  let scheduleEnd : Rat := match svc.lastCheckResult with
    | some cr => cr.scheduleEnd
    | none => -1
  let executionStart : Rat := match svc.lastCheckResult with
    | some cr => cr.executionStart
    | none => -1
  let executionEnd : Rat := match svc.lastCheckResult with
    | some cr => cr.executionEnd
    | none => -1
  let executionTime : Rat := executionEnd - executionStart
  let latency : Rat := (scheduleEnd - scheduleStart) - executionTime
  let state : Int := if svc.state > StateUnknown then StateUnknown else svc.state
  ⟨"servicestatus",
   [("host_name", .str svc.hostName),
    ("service_description", .str svc.aliasName),
    ("check_interval", .rat (svc.checkInterval / 60)),
    ("retry_interval", .rat (svc.retryInterval / 60)),
    ("has_been_checked", .int (if svc.lastCheckResult.isSome then 1 else 0)),
    ("should_be_scheduled", .int 1),
    ("check_execution_time", .rat executionTime),
    ("check_latency", .rat latency),
    ("current_state", .int state),
    ("state_type", .int svc.stateType),
    ("plugin_output", .str output),
    ("performance_data", .str perfdata),
    ("last_check", .rat scheduleEnd),
    ("next_check", .rat svc.nextCheck),
    ("current_attempt", .int svc.currentCheckAttempt),
    ("max_attempts", .int svc.maxCheckAttempts),
    ("last_state_change", .rat svc.lastStateChange),
    ("last_hard_state_change", .rat svc.lastHardStateChange),
    ("last_update", .rat now),
    ("active_checks_enabled", .int (if svc.enableActiveChecks then 1 else 0)),
    ("passive_checks_enabled", .int (if svc.enablePassiveChecks then 1 else 0)),
    ("problem_has_been_acknowledged", .int (if svc.acknowledgement ≠ AcknowledgementNone then 1 else 0)),
    ("acknowledgement_type", .int svc.acknowledgement),
    ("acknowledgement_end_time", .rat svc.acknowledgementExpiry)]⟩

/-- CompatComponent::DumpServiceObject. -/
def dumpServiceObject (svc : Service) : Block :=
  ⟨"define service",
   [("host_name", .str svc.hostName),
    ("service_description", .str svc.aliasName),
    ("check_command", .str "check_i2"),
    ("check_interval", .rat (svc.checkInterval / 60)),
    ("retry_interval", .rat (svc.retryInterval / 60)),
    ("max_check_attempts", .int 1),
    ("active_checks_enabled", .int (if svc.enableActiveChecks then 1 else 0)),
    ("passive_checks_enabled", .int (if svc.enablePassiveChecks then 1 else 0))]⟩

/-- The hostgroup block written inline by StatusTimerHandler; the members
field is written unconditionally. -/
def dumpHostGroupObject (hg : HostGroup) : Block :=
  ⟨"define hostgroup",
   [("hostgroup_name", .str hg.name),
    ("alias", .str hg.aliasName),
    ("notes_url", .str hg.notesUrl),
    ("action_url", .str hg.actionUrl),
    ("members", .str (dumpNameList hg.members))]⟩

/-- The servicegroup block written inline by StatusTimerHandler; the
members list pushes the host name and then the service alias of each
member service, and is written unconditionally. -/
def dumpServiceGroupObject (sg : ServiceGroup) : Block :=
  let sglist := sg.members.foldl (fun acc svc => acc ++ [svc.hostName, svc.aliasName]) []
  ⟨"define servicegroup",
   [("servicegroup_name", .str sg.name),
    ("alias", .str sg.aliasName),
    ("notes_url", .str sg.notesUrl),
    ("action_url", .str sg.actionUrl),
    ("members", .str (dumpNameList sglist))]⟩

/-- The info header block of status.dat. -/
def infoBlock (now : Rat) : Block :=
  ⟨"info", [("created", .rat now), ("version", .str "2.0")]⟩

/-- The programstatus header block of status.dat. -/
def programStatusBlock (pid : Int) (programStart : Rat) (s1 s5 s15 : Int) : Block :=
  ⟨"programstatus",
   [("icinga_pid", .int pid),
    ("daemon_mode", .int 1),
    ("program_start", .rat programStart),
    ("active_service_checks_enabled", .int 1),
    ("passive_service_checks_enabled", .int 1),
    ("active_host_checks_enabled", .int 0),
    ("passive_host_checks_enabled", .int 0),
    ("check_service_freshness", .int 0),
    ("check_host_freshness", .int 0),
    ("enable_flap_detection", .int 1),
    ("enable_failure_prediction", .int 0),
    ("active_scheduled_service_check_stats",
     .str (toString s1 ++ "," ++ toString s5 ++ "," ++ toString s15))]⟩

/-- The object registry as seen by one publish cycle: the objects of each
dynamic type in enumeration order. -/
structure Registry where
  hosts : List Host
  hostgroups : List HostGroup
  services : List Service
  servicegroups : List ServiceGroup
deriving DecidableEq

/-- CompatComponent::StatusTimerHandler, as the pair of block sequences
it appends to the status file and the objects file: headers first, then
one pass over the registry, hosts, hostgroups, services, servicegroups,
appending to the open streams as it goes. -/
def statusTimerHandler (reg : Registry) (now : Rat) (pid : Int) (programStart : Rat)
    (s1 s5 s15 : Int) : List Block × List Block :=
  let statusDoc0 := [infoBlock now, programStatusBlock pid programStart s1 s5 s15]
  let objectDoc0 : List Block := []
  let docs1 := reg.hosts.foldl
    (fun docs h => (docs.1 ++ [dumpHostStatus h now], docs.2 ++ [dumpHostObject h]))
    (statusDoc0, objectDoc0)
  let docs2 := (docs1.1, reg.hostgroups.foldl (fun doc hg => doc ++ [dumpHostGroupObject hg]) docs1.2)
  let docs3 := reg.services.foldl
    (fun docs svc => (docs.1 ++ [dumpServiceStatus svc now], docs.2 ++ [dumpServiceObject svc]))
    docs2
  (docs3.1, reg.servicegroups.foldl (fun doc sg => doc ++ [dumpServiceGroupObject sg]) docs3.2)

/- ===================== Command pipe lifecycle (CommandPipeThread) ===== -/

/-- What lstat reports about an existing filesystem node at the command
path: whether it is a FIFO and whether the process has read access. -/
structure FsNode where
  isFifo : Bool
  readable : Bool
deriving DecidableEq

/-- The fatal setup failures of CommandPipeThread before the read loop:
unlink of a conflicting node failing, or mkfifo failing. -/
inductive PipeSetupError where
  | unlinkFailed
  | mkfifoFailed
deriving DecidableEq

/-- The filesystem actions a successful setup performed: whether the
existing node was unlinked and whether a new FIFO was created.  Reusing
the existing pipe is the trace with neither action. -/
structure PipeSetupTrace where
  removed : Bool
  madeFifo : Bool
deriving DecidableEq

/-- The setup phase of CompatComponent::CommandPipeThread: lstat the
command path; a readable FIFO is kept (fifo_ok), any other existing node
is unlinked, with failure fatal; then, unless the FIFO was kept, mkfifo
is called, with failure fatal.  unlinkOk and mkfifoOk say whether those
two system calls succeed. -/
def commandPipeSetup (node : Option FsNode) (unlinkOk : Bool) (mkfifoOk : Bool) :
    Except PipeSetupError PipeSetupTrace :=
  match node with
  | some n =>
    if n.isFifo && n.readable then
      .ok ⟨false, false⟩
    else if unlinkOk then
      if mkfifoOk then .ok ⟨true, true⟩ else .error .mkfifoFailed
    else
      .error .unlinkFailed
  | none =>
    if mkfifoOk then .ok ⟨false, true⟩ else .error .mkfifoFailed

/-- One iteration of the outer for loop of CommandPipeThread, seen from
the trace side: either the blocking open (or fdopen) of the pipe fails,
or a writer connects and the channel reads the lines of that session
until end-of-stream. -/
inductive PipeEvent where
  | openFail
  | session (lines : List (List Char))
deriving DecidableEq

/-- The trailing carriage-return and newline stripping applied to each
line read by fgets before it is posted to ProcessCommand. -/
def stripTrailing (l : List Char) : List Char :=
  (l.reverse.dropWhile (fun c => c == '\r' || c == '\n')).reverse

/-- Lines of one trace event: a failed open serves no lines. -/
def sessionLines : PipeEvent → List (List Char)
  | .openFail => []
  | .session ls => ls

/-- The read loop of CompatComponent::CommandPipeThread over a finite
prefix of its event trace: each session is read to end-of-stream, every
line is stripped and posted, the handle is closed and the pipe reopened
for the next event; a failed open throws and terminates the loop.  The
result is the list of lines posted to ProcessCommand and whether the
loop terminated fatally (false means it is still serving). -/
def commandPipeLoop : List PipeEvent → List (List Char) × Bool
  | [] => ([], false)
  | .openFail :: _ => ([], true)
  | .session ls :: rest =>
    let out := commandPipeLoop rest
    (ls.map stripTrailing ++ out.1, out.2)

/- ===================== Helper lemmas ================================== -/

theorem takeWhile_append_stop {α : Type} (p : α → Bool) (xs : List α) (y : α) (ys : List α)
    (hxs : ∀ x ∈ xs, p x = true) (hy : p y = false) :
    (xs ++ y :: ys).takeWhile p = xs := by
  induction xs with
  | nil => simp [List.takeWhile_cons, hy]
  | cons a as ih =>
    have ha : p a = true := hxs a (by simp)
    simp only [List.cons_append, List.takeWhile_cons, ha, if_true]
    rw [ih (fun x hx => hxs x (by simp [hx]))]

theorem splitFieldsAux_no_semi (xs acc : List Char) (h : ∀ c ∈ xs, c ≠ ';') :
    splitFieldsAux xs acc = [acc.reverse ++ xs] := by
  induction xs generalizing acc with
  | nil => simp [splitFieldsAux]
  | cons c rest ih =>
    have hc : c ≠ ';' := h c (by simp)
    rw [splitFieldsAux, if_neg hc, ih (c :: acc) (fun x hx => h x (by simp [hx]))]
    simp

theorem splitFieldsAux_semi (xs ys acc : List Char) (h : ∀ c ∈ xs, c ≠ ';') :
    splitFieldsAux (xs ++ ';' :: ys) acc = (acc.reverse ++ xs) :: splitFieldsAux ys [] := by
  induction xs generalizing acc with
  | nil => simp [splitFieldsAux]
  | cons c rest ih =>
    have hc : c ≠ ';' := h c (by simp)
    rw [List.cons_append, splitFieldsAux, if_neg hc,
      ih (c :: acc) (fun x hx => h x (by simp [hx]))]
    simp

theorem splitSemis_three (n a b : List Char) (hn : ';' ∉ n) (ha : ';' ∉ a) (hb : ';' ∉ b) :
    splitSemis (n ++ ';' :: (a ++ ';' :: b)) = [n, a, b] := by
  have hmem : ∀ (l : List Char), ';' ∉ l → ∀ c ∈ l, c ≠ ';' :=
    fun l hl c hc he => hl (he ▸ hc)
  rw [splitSemis, if_neg (by simp), splitFieldsAux_semi n _ [] (hmem n hn),
    splitFieldsAux_semi a _ [] (hmem a ha), splitFieldsAux_no_semi b [] (hmem b hb)]
  simp

/-- A well-formed line, seen at the character level: the bracket position,
timestamp field and remainder come out as expected. -/
theorem processCommandCore_wellformed (t n a b : List Char)
    (ht : ']' ∉ t) (hts : toDouble t ≠ 0) (hn : ';' ∉ n) (ha : ';' ∉ a) (hb : ';' ∉ b) :
    processCommandCore ('[' :: (t ++ ']' :: ' ' :: (n ++ ';' :: (a ++ ';' :: b))))
      = .executed (toDouble t) n [a, b] := by
  set rest := n ++ ';' :: (a ++ ';' :: b) with hrest
  set c := '[' :: (t ++ ']' :: ' ' :: rest) with hc
  have hsplit : c = ('[' :: t) ++ ']' :: ' ' :: rest := by simp [hc]
  have hbp : bracketPos c = t.length + 1 := by
    rw [bracketPos, hsplit,
      takeWhile_append_stop _ ('[' :: t) ']' (' ' :: rest)
        (by
          intro x hx
          rcases List.mem_cons.mp hx with h | h
          · subst h; decide
          · exact bne_iff_ne.mpr (fun he => ht (he ▸ h)))
        (by decide)]
    simp
  have hfield : tsFieldOf c = t := by
    rw [tsFieldOf, hbp, hc]
    simp [List.take_left]
  have hrem : remainderOf c = rest := by
    rw [remainderOf, hbp, hsplit]
    have : t.length + 1 + 2 = ('[' :: t).length + 2 := by simp
    rw [this, List.drop_append]
    rfl
  rw [processCommandCore]
  rw [if_neg (show ¬(c = []) by simp [hc])]
  rw [if_neg (show ¬(c.head? ≠ some '[') by simp [hc])]
  rw [if_neg (show ¬(']' ∉ c) by simp [hc])]
  rw [hfield, hrem, if_neg hts, hrest, splitSemis_three n a b hn ha hb]

theorem foldl_append_map2 {α β : Type} (f g : α → β) (l : List α) (i1 i2 : List β) :
    l.foldl (fun p x => (p.1 ++ [f x], p.2 ++ [g x])) (i1, i2) = (i1 ++ l.map f, i2 ++ l.map g) := by
  induction l generalizing i1 i2 with
  | nil => simp
  | cons x xs ih => simp [ih, List.append_assoc]

theorem foldl_append_map {α β : Type} (f : α → β) (l : List α) (init : List β) :
    l.foldl (fun acc x => acc ++ [f x]) init = init ++ l.map f := by
  induction l generalizing init with
  | nil => simp
  | cons x xs ih => simp [ih, List.append_assoc]

theorem foldl_append_pairs (l : List Service) (init : List String) :
    l.foldl (fun acc svc => acc ++ [svc.hostName, svc.aliasName]) init
      = init ++ l.flatMap (fun svc => [svc.hostName, svc.aliasName]) := by
  induction l generalizing init with
  | nil => simp
  | cons x xs ih => simp [ih, List.append_assoc]

/-- Closed form of one publish cycle: the status document is the two
headers, then the host status blocks, then the service status blocks;
the objects document is host objects, hostgroup objects, service
objects, servicegroup objects, in registry enumeration order. -/
theorem statusTimerHandler_closed (reg : Registry) (now : Rat) (pid : Int)
    (programStart : Rat) (s1 s5 s15 : Int) :
    statusTimerHandler reg now pid programStart s1 s5 s15
      = (infoBlock now :: programStatusBlock pid programStart s1 s5 s15
           :: (reg.hosts.map (fun h => dumpHostStatus h now)
               ++ reg.services.map (fun svc => dumpServiceStatus svc now)),
         reg.hosts.map dumpHostObject ++ reg.hostgroups.map dumpHostGroupObject
           ++ reg.services.map dumpServiceObject
           ++ reg.servicegroups.map dumpServiceGroupObject) := by
  rw [statusTimerHandler]
  rw [foldl_append_map2, foldl_append_map, foldl_append_map2, foldl_append_map]
  simp [List.append_assoc]

/- ===================== Claim theorems ================================= -/

/-- C1: for every well-formed input line of the shape [T] NAME;A;B with T
a non-zero real number, ProcessCommand decodes timestamp T, command name
NAME, and the argument list [A, B] in order (empty arguments included, no
trimming), and submits exactly that command to the execution engine. -/
theorem decode_wellformed_line_executes (t n a b : String)
    (ht : ']' ∉ t.data) (hts : toDouble t.data ≠ 0)
    (hn : ';' ∉ n.data) (ha : ';' ∉ a.data) (hb : ';' ∉ b.data) :
    processCommand ("[" ++ t ++ "] " ++ n ++ ";" ++ a ++ ";" ++ b)
      = ProcessResult.executed (toDouble t.data) n.data [a.data, b.data] := by
  have h1 : "[".data = ['['] := rfl
  have h2 : "] ".data = [']', ' '] := rfl
  have h3 : ";".data = [';'] := rfl
  have hdata : ("[" ++ t ++ "] " ++ n ++ ";" ++ a ++ ";" ++ b).data
      = '[' :: (t.data ++ ']' :: ' ' :: (n.data ++ ';' :: (a.data ++ ';' :: b.data))) := by
    simp [String.data_append, h1, h2, h3]
  rw [processCommand, hdata]
  exact processCommandCore_wellformed t.data n.data a.data b.data ht hts hn ha hb

/-- Witness for C1: the external-command scenario line decodes to name
SCHEDULE_SVC_CHECK with its two arguments and timestamp 1700000000. -/
theorem decode_wellformed_line_executes_witness :
    processCommand "[1700000000] SCHEDULE_SVC_CHECK;myhost;myservice"
      = ProcessResult.executed 1700000000 "SCHEDULE_SVC_CHECK".data
          ["myhost".data, "myservice".data] := by
  have h := decode_wellformed_line_executes "1700000000" "SCHEDULE_SVC_CHECK" "myhost" "myservice"
    (by decide) (by decide) (by decide) (by decide) (by decide)
  have hts : toDouble "1700000000".data = 1700000000 := by decide
  have hs : "[" ++ "1700000000" ++ "] " ++ "SCHEDULE_SVC_CHECK" ++ ";" ++ "myhost" ++ ";" ++ "myservice"
      = "[1700000000] SCHEDULE_SVC_CHECK;myhost;myservice" := by decide
  rw [hs, hts] at h
  exact h

/-- Counterexample for C2: the empty input line does not start with a
left bracket, yet ProcessCommand discards it silently instead of failing
with one of the documented kinds. -/
theorem empty_line_silently_ignored :
    processCommand "" = ProcessResult.ignored
    ∧ processCommand "" ≠ ProcessResult.failed CommandError.MissingTimestamp
    ∧ processCommand "" ≠ ProcessResult.failed CommandError.InvalidTimestamp
    ∧ processCommand "" ≠ ProcessResult.failed CommandError.MissingArguments := by
  refine ⟨rfl, ?_, ?_, ?_⟩ <;> decide

/-- C2 (amended: the empty line is discarded silently, with no failure
report; every other line behaves as claimed): a non-empty line that does
not start with a left bracket, or that lacks a right bracket, fails with
MissingTimestamp; one whose timestamp field reads as zero (zero or
non-numeric text) fails with InvalidTimestamp; one with an empty
remainder after the timestamp fails with MissingArguments; in every case
the failure result carries no command and nothing is dispatched. -/
theorem nonempty_malformed_line_fails (c : String) (hne : c.data ≠ []) :
    (c.data.head? ≠ some '[' → processCommand c = .failed .MissingTimestamp)
    ∧ (']' ∉ c.data → processCommand c = .failed .MissingTimestamp)
    ∧ (c.data.head? = some '[' → ']' ∈ c.data → toDouble (tsFieldOf c.data) = 0 →
        processCommand c = .failed .InvalidTimestamp)
    ∧ (c.data.head? = some '[' → ']' ∈ c.data → toDouble (tsFieldOf c.data) ≠ 0 →
        remainderOf c.data = [] → processCommand c = .failed .MissingArguments) := by
  refine ⟨?_, ?_, ?_, ?_⟩
  · intro h
    rw [processCommand, processCommandCore, if_neg hne, if_pos h]
  · intro h
    rw [processCommand, processCommandCore, if_neg hne]
    by_cases h0 : c.data.head? ≠ some '['
    · rw [if_pos h0]
    · rw [if_neg h0, if_pos h]
  · intro h0 h1 h2
    rw [processCommand, processCommandCore, if_neg hne, if_neg (by simp [h0]),
      if_neg (by simp [h1]), if_pos h2]
  · intro h0 h1 h2 h3
    rw [processCommand, processCommandCore, if_neg hne, if_neg (by simp [h0]),
      if_neg (by simp [h1]), if_neg h2, h3]
    rfl

/-- Witness for C2: the scenario line garbage fails with
MissingTimestamp. -/
theorem nonempty_malformed_line_fails_witness :
    processCommand "garbage" = ProcessResult.failed CommandError.MissingTimestamp :=
  (nonempty_malformed_line_fails "garbage" (by decide)).1 (by decide)

/-- C10: every line that passes the timestamp checks yields a defined
result from remainder extraction, either a MissingArguments failure or an
executed command; and when the remainder start two characters past the
first right bracket lies beyond the end of the line (as when the line
ends at that bracket), the empty remainder is taken and the line fails
cleanly with MissingArguments. -/
theorem remainder_extraction_safe (c : String)
    (h0 : c.data.head? = some '[') (h1 : ']' ∈ c.data)
    (h2 : toDouble (tsFieldOf c.data) ≠ 0) :
    (processCommand c = .failed .MissingArguments
      ∨ ∃ nm args, processCommand c = .executed (toDouble (tsFieldOf c.data)) nm args)
    ∧ (c.data.length ≤ bracketPos c.data + 1 → processCommand c = .failed .MissingArguments) := by
  have hne : c.data ≠ [] := by
    intro h
    rw [h] at h0
    simp at h0
  constructor
  · rw [processCommand, processCommandCore, if_neg hne, if_neg (by simp [h0]),
      if_neg (by simp [h1]), if_neg h2]
    cases hsp : splitSemis (remainderOf c.data) with
    | nil => exact Or.inl rfl
    | cons nm rest => exact Or.inr ⟨nm, rest, rfl⟩
  · intro hlen
    have hrem : remainderOf c.data = [] := by
      rw [remainderOf]
      exact List.drop_of_length_le (by omega)
    rw [processCommand, processCommandCore, if_neg hne, if_neg (by simp [h0]),
      if_neg (by simp [h1]), if_neg h2, hrem]
    rfl

/-- Witness for C10: the line that ends at its right bracket is handled
without error and fails with MissingArguments. -/
theorem remainder_extraction_safe_witness :
    processCommand "[123]" = ProcessResult.failed CommandError.MissingArguments :=
  (remainder_extraction_safe "[123]" (by decide) (by decide) (by decide)).2 (by decide)

/-- Counterexample for C3: for a host with an empty parent list the
encoded host block omits the parents field entirely instead of keeping
it as an empty field. -/
theorem host_without_parents_field_omitted :
    fieldOf (dumpHostObject ⟨"h1", "Host one", [], true, true, none⟩) "parents" = none := by
  decide

/-- C3 (amended: the group members field renders comma-joined and is
present even when the member list is empty, but the host parents field,
while comma-joined when present, is omitted entirely when the host has
no parents): rendering of the list-valued fields of hostgroup and host
object blocks. -/
theorem list_field_rendering (hg : HostGroup) (h : Host) :
    fieldOf (dumpHostGroupObject hg) "members"
      = some (.str (String.intercalate "," hg.members))
    ∧ (h.parents ≠ [] → fieldOf (dumpHostObject h) "parents"
        = some (.str (String.intercalate "," h.parents)))
    ∧ (h.parents = [] → fieldOf (dumpHostObject h) "parents" = none) := by
  refine ⟨?_, ?_, ?_⟩
  · simp [fieldOf, dumpHostGroupObject, dumpNameList, List.find?]
  · intro hp
    simp [fieldOf, dumpHostObject, dumpNameList, List.find?, hp]
  · intro hp
    simp [fieldOf, dumpHostObject, dumpNameList, List.find?, hp]

/-- Witness for C3: an empty hostgroup still carries an empty members
field, and a two-parent host gets the comma-joined parents field. -/
theorem list_field_rendering_witness :
    fieldOf (dumpHostGroupObject ⟨"g1", "Group one", "", "", []⟩) "members"
      = some (FVal.str "")
    ∧ fieldOf (dumpHostObject ⟨"h2", "Host two", ["p1", "p2"], true, true, none⟩) "parents"
      = some (FVal.str "p1,p2") := by
  constructor
  · exact (list_field_rendering ⟨"g1", "Group one", "", "", []⟩
      ⟨"h2", "Host two", ["p1", "p2"], true, true, none⟩).1
  · exact ((list_field_rendering ⟨"g1", "Group one", "", "", []⟩
      ⟨"h2", "Host two", ["p1", "p2"], true, true, none⟩).2.1 (by decide))

/-- C4: the current_state value written to a servicestatus block is
clamped at StateUnknown, the highest defined severity: a state above it
is coerced down to it, and a state at or below it is written
unchanged. -/
theorem service_state_clamped (svc : Service) (now : Rat) :
    (svc.state ≤ StateUnknown →
      fieldOf (dumpServiceStatus svc now) "current_state" = some (.int svc.state))
    ∧ (StateUnknown < svc.state →
      fieldOf (dumpServiceStatus svc now) "current_state" = some (.int StateUnknown)) := by
  constructor
  · intro h
    have hnot : ¬ (svc.state > StateUnknown) := not_lt.mpr h
    simp [fieldOf, dumpServiceStatus, List.find?, hnot]
  · intro h
    simp [fieldOf, dumpServiceStatus, List.find?, h]

/-- Witness for C4: a state of 7 publishes as 3 (StateUnknown). -/
theorem service_state_clamped_witness :
    fieldOf (dumpServiceStatus ⟨"h", "s", 60, 60, none, 7, 1, 0, 1, 1, 0, 0, true, true, 0, 0⟩ 0)
        "current_state" = some (FVal.int 3) :=
  (service_state_clamped ⟨"h", "s", 60, 60, none, 7, 1, 0, 1, 1, 0, 0, true, true, 0, 0⟩ 0).2
    (by decide)

/-- C5: check_execution_time equals execution_end minus execution_start
and check_latency equals (schedule_end minus schedule_start) minus the
execution time of the last check result, and both are exactly 0 when the
service has no check result. -/
theorem service_timing_fields (svc : Service) (now : Rat) :
    (svc.lastCheckResult = none →
      fieldOf (dumpServiceStatus svc now) "check_execution_time" = some (.rat 0)
      ∧ fieldOf (dumpServiceStatus svc now) "check_latency" = some (.rat 0))
    ∧ (∀ cr, svc.lastCheckResult = some cr →
      fieldOf (dumpServiceStatus svc now) "check_execution_time"
        = some (.rat (cr.executionEnd - cr.executionStart))
      ∧ fieldOf (dumpServiceStatus svc now) "check_latency"
        = some (.rat ((cr.scheduleEnd - cr.scheduleStart)
            - (cr.executionEnd - cr.executionStart)))) := by
  constructor
  · intro h
    constructor <;> simp [fieldOf, dumpServiceStatus, List.find?, h]
  · intro cr h
    constructor <;> simp [fieldOf, dumpServiceStatus, List.find?, h]

/-- Witness for C5: a service with no check result publishes both timing
fields as 0, and one with a concrete check result publishes the two
differences. -/
theorem service_timing_fields_witness :
    fieldOf (dumpServiceStatus ⟨"h", "s", 60, 60, none, 0, 1, 0, 1, 1, 0, 0, true, true, 0, 0⟩ 0)
        "check_execution_time" = some (FVal.rat 0)
    ∧ fieldOf (dumpServiceStatus
        ⟨"h", "s", 60, 60, some ⟨"out", 10, 15, 11, 14, "perf"⟩, 0, 1, 0, 1, 1, 0, 0, true, true, 0, 0⟩ 0)
        "check_latency" = some (FVal.rat 2) := by
  constructor
  · exact ((service_timing_fields
      ⟨"h", "s", 60, 60, none, 0, 1, 0, 1, 1, 0, 0, true, true, 0, 0⟩ 0).1 rfl).1
  · have h := ((service_timing_fields
      ⟨"h", "s", 60, 60, some ⟨"out", 10, 15, 11, 14, "perf"⟩, 0, 1, 0, 1, 1, 0, 0, true, true, 0, 0⟩
      0).2 ⟨"out", 10, 15, 11, 14, "perf"⟩ rfl).2
    have hval : ((15 : Rat) - 10) - ((14 : Rat) - 11) = 2 := by norm_num
    rw [hval] at h
    exact h

/-- C6: every publish cycle enumerates the registry in the fixed order
Hosts, HostGroups, Services, ServiceGroups, and renders each
servicegroup members field as the interleaved host_name, service_alias
pairs of its member services flattened into one comma-joined list. -/
theorem publish_enumeration_order (reg : Registry) (now : Rat) (pid : Int)
    (programStart : Rat) (s1 s5 s15 : Int) :
    (statusTimerHandler reg now pid programStart s1 s5 s15).2
      = reg.hosts.map dumpHostObject ++ reg.hostgroups.map dumpHostGroupObject
        ++ reg.services.map dumpServiceObject ++ reg.servicegroups.map dumpServiceGroupObject
    ∧ (statusTimerHandler reg now pid programStart s1 s5 s15).1
      = infoBlock now :: programStatusBlock pid programStart s1 s5 s15
          :: (reg.hosts.map (fun h => dumpHostStatus h now)
              ++ reg.services.map (fun svc => dumpServiceStatus svc now))
    ∧ (∀ sg : ServiceGroup, fieldOf (dumpServiceGroupObject sg) "members"
        = some (.str (String.intercalate ","
            (sg.members.flatMap (fun svc => [svc.hostName, svc.aliasName]))))) := by
  refine ⟨?_, ?_, ?_⟩
  · rw [statusTimerHandler_closed]
  · rw [statusTimerHandler_closed]
  · intro sg
    simp [fieldOf, dumpServiceGroupObject, dumpNameList, List.find?, foldl_append_pairs]

/-- C7: every hoststatus block carries has_been_checked equal to 1 and a
current_state computed purely from the reachability and up flags (2 if
unreachable, 1 if not up, 0 if up), independent of any check-result
data; a registry holding exactly one host publishes exactly that block
after the two headers. -/
theorem host_status_fields (h : Host) (now : Rat) (cr2 : Option CheckResult)
    (pid : Int) (programStart : Rat) (s1 s5 s15 : Int) :
    fieldOf (dumpHostStatus h now) "has_been_checked" = some (.int 1)
    ∧ fieldOf (dumpHostStatus h now) "current_state"
        = some (.int (if !h.reachable then 2 else if !h.up then 1 else 0))
    ∧ dumpHostStatus { h with lastCheckResult := cr2 } now = dumpHostStatus h now
    ∧ (statusTimerHandler ⟨[h], [], [], []⟩ now pid programStart s1 s5 s15).1
        = [infoBlock now, programStatusBlock pid programStart s1 s5 s15, dumpHostStatus h now] := by
  refine ⟨?_, ?_, rfl, ?_⟩
  · simp [fieldOf, dumpHostStatus, List.find?]
  · simp [fieldOf, dumpHostStatus, List.find?]
  · rw [statusTimerHandler_closed]
    simp

/-- Counterexample for C8: an existing node that is a pipe, but without
read permission, is also unlinked and re-made, so removal is not limited
to nodes that are not pipes. -/
theorem unreadable_fifo_removed :
    commandPipeSetup (some ⟨true, false⟩) true true = Except.ok ⟨true, true⟩ := rfl

/-- C8 (amended: the node is removed only if it is not a readable pipe,
that is, not a pipe at all or a pipe without read permission; a pipe
with read permission is reused as-is; failure to remove a conflicting
node is fatal, as is a failed pipe creation): validation of the command
path during channel startup. -/
theorem pipe_setup_validation (node : Option FsNode) (unlinkOk mkfifoOk : Bool) :
    (∀ n, node = some n → n.isFifo = true → n.readable = true →
      commandPipeSetup node unlinkOk mkfifoOk = .ok ⟨false, false⟩)
    ∧ (∀ n, node = some n → ¬(n.isFifo = true ∧ n.readable = true) → unlinkOk = false →
      commandPipeSetup node unlinkOk mkfifoOk = .error .unlinkFailed)
    ∧ (∀ n, node = some n → ¬(n.isFifo = true ∧ n.readable = true) → unlinkOk = true →
        mkfifoOk = true →
      commandPipeSetup node unlinkOk mkfifoOk = .ok ⟨true, true⟩)
    ∧ (node = none → mkfifoOk = true →
      commandPipeSetup node unlinkOk mkfifoOk = .ok ⟨false, true⟩)
    ∧ (∀ tr, commandPipeSetup node unlinkOk mkfifoOk = .ok tr →
      (tr.removed = true ↔ ∃ n, node = some n ∧ ¬(n.isFifo = true ∧ n.readable = true))) := by
  refine ⟨?_, ?_, ?_, ?_, ?_⟩
  · rintro ⟨fifo, rdbl⟩ rfl hf hr
    subst hf
    subst hr
    rfl
  · rintro ⟨fifo, rdbl⟩ rfl hnot hu
    subst hu
    cases fifo <;> cases rdbl <;> simp_all [commandPipeSetup]
  · rintro ⟨fifo, rdbl⟩ rfl hnot hu hm
    subst hu
    subst hm
    cases fifo <;> cases rdbl <;> simp_all [commandPipeSetup]
  · rintro rfl hm
    subst hm
    rfl
  · intro tr htr
    constructor
    · intro hrem
      cases node with
      | none =>
        cases hmk : mkfifoOk <;> subst hmk <;> simp_all [commandPipeSetup] <;>
          (try subst htr) <;> simp_all
      | some n =>
        refine ⟨n, rfl, ?_⟩
        obtain ⟨fifo, rdbl⟩ := n
        cases fifo <;> cases rdbl <;> cases unlinkOk <;> cases mkfifoOk <;>
          simp_all [commandPipeSetup] <;> (try subst htr) <;> simp_all
    · rintro ⟨n, rfl, hnot⟩
      obtain ⟨fifo, rdbl⟩ := n
      cases fifo <;> cases rdbl <;> cases unlinkOk <;> cases mkfifoOk <;>
        simp_all [commandPipeSetup] <;> (try subst htr) <;> simp_all

/-- Witness for C8: a non-pipe node with read permission is removed and
the FIFO re-made when both system calls succeed. -/
theorem pipe_setup_validation_witness :
    commandPipeSetup (some ⟨false, true⟩) true true = Except.ok ⟨true, true⟩ :=
  (pipe_setup_validation (some ⟨false, true⟩) true true).2.2.1 ⟨false, true⟩ rfl
    (by simp) rfl rfl

theorem commandPipeLoop_fatal_iff (tr : List PipeEvent) :
    (commandPipeLoop tr).2 = true ↔ PipeEvent.openFail ∈ tr := by
  induction tr with
  | nil => simp [commandPipeLoop]
  | cons e rest ih =>
    cases e with
    | openFail => simp [commandPipeLoop]
    | session ls => simp [commandPipeLoop, ih]

theorem commandPipeLoop_noFail (tr : List PipeEvent) (h : PipeEvent.openFail ∉ tr) :
    commandPipeLoop tr = ((tr.map sessionLines).flatten.map stripTrailing, false) := by
  induction tr with
  | nil => simp [commandPipeLoop]
  | cons e rest ih =>
    cases e with
    | openFail => simp at h
    | session ls =>
      have h2 : PipeEvent.openFail ∉ rest := fun hm => h (List.mem_cons_of_mem _ hm)
      simp [commandPipeLoop, sessionLines, ih h2]

/-- C9: the read loop never terminates on malformed input or on a peer
closing the pipe: when no open fails, every line of every session is
stripped and posted, in order, whatever its content, and the loop is
still serving after the last session; the loop terminates, fatally,
exactly when an open (or fdopen) of the pipe fails. -/
theorem read_loop_resilient (tr : List PipeEvent) :
    ((commandPipeLoop tr).2 = true ↔ PipeEvent.openFail ∈ tr)
    ∧ (PipeEvent.openFail ∉ tr →
        commandPipeLoop tr = ((tr.map sessionLines).flatten.map stripTrailing, false)) :=
  ⟨commandPipeLoop_fatal_iff tr, commandPipeLoop_noFail tr⟩

/-- Witness for C9: three sessions, one with a malformed line, one empty
(a writer that closed immediately), one well-formed; all lines are
posted with line endings stripped and the loop is still serving. -/
theorem read_loop_resilient_witness :
    commandPipeLoop [PipeEvent.session ["garbage".data], PipeEvent.session [],
        PipeEvent.session ["[1] CMD;a\n".data]]
      = (["garbage".data, "[1] CMD;a".data], false) := by
  have h := (read_loop_resilient [PipeEvent.session ["garbage".data], PipeEvent.session [],
    PipeEvent.session ["[1] CMD;a\n".data]]).2 (by decide)
  exact h.trans (by decide)

end Compat
